import Mathlib

/-!
Verification of the MrcarCotizacion resolution & pricing engine.

The Python source is shallowly embedded: Python numbers (ints and floats)
are idealized as exact rationals, Python `int()` is truncation toward zero,
Python 3 `round()` is round-half-to-even on the exact value, strings are
lists of characters with ASCII case mapping, and fallible paths return
`Option`.  The regular expressions used by the scrapers are embedded as
deterministic character-list scanners that reproduce the leftmost,
non-overlapping, greedy matching of Python's `re` module on the specific
patterns occurring in the source.
-/

namespace Mrcar

/-- Python 3 `round` on an exact rational: round half to even
(banker's rounding), as used by `PricingEngine.round_to_hundred_thousand`. -/
def pythonRound (q : ℚ) : ℤ :=
  let f := ⌊q⌋
  let frac := q - (f : ℚ)
  if frac < 1/2 then f
  else if 1/2 < frac then f + 1
  else if f % 2 = 0 then f else f + 1

/-- Python `int()` applied to a number: truncation toward zero. -/
def pyTrunc (q : ℚ) : ℤ := if 0 ≤ q then ⌊q⌋ else ⌈q⌉

/-! ## Pricing engine (`src/execution/pricing_engine.py`, class `PricingEngine`) -/

/-- `PURCHASE_MULTIPLIER = 0.52` -/
def PURCHASE_MULTIPLIER : ℚ := 52/100

/-- `CONSIGNMENT_THRESHOLD = 8000000` -/
def CONSIGNMENT_THRESHOLD : ℚ := 8000000

/-- `HIGH_TIER_TOTAL_COMMISSION = 0.05355` -/
def HIGH_TIER_TOTAL_COMMISSION : ℚ := 5355/100000

/-- `LOW_TIER_FIXED_FEE = 428400` -/
def LOW_TIER_FIXED_FEE : ℚ := 428400

/-- `round_to_hundred_thousand(value) = round(value / 100000) * 100000` -/
def round_to_hundred_thousand (value : ℚ) : ℤ :=
  pythonRound (value / 100000) * 100000

/-- `calculate_immediate_purchase_offer`: `None` when the market price is
falsy or non-positive, otherwise the offer `market_price * 0.52` rounded to
the nearest hundred thousand. -/
def calculate_immediate_purchase_offer (market_price : ℚ) : Option ℤ :=
  if market_price ≤ 0 then none
  else some (round_to_hundred_thousand (market_price * PURCHASE_MULTIPLIER))

/-- `calculate_consignment_liquidation`: `None` when the market price is
falsy or non-positive; above the threshold `int(mp * (1 - 0.05355))`;
otherwise `int(max(0, mp - 428400))`. -/
def calculate_consignment_liquidation (market_price : ℚ) : Option ℤ :=
  if market_price ≤ 0 then none
  else if CONSIGNMENT_THRESHOLD < market_price then
    some (pyTrunc (market_price * (1 - HIGH_TIER_TOTAL_COMMISSION)))
  else
    some (pyTrunc (max 0 (market_price - LOW_TIER_FIXED_FEE)))

/-- The `consignment_type` strings of `calculate_pricing`. -/
inductive ConsignmentType where
  | PERCENTAGE_BASED
  | FIXED_FEE
deriving DecidableEq, Repr

/-- The nested `details` dict of a successful `calculate_pricing` result. -/
structure PricingDetails where
  purchase_multiplier : ℚ
  consignment_threshold : ℚ
  commission_rate : Option ℚ
  fixed_fee : Option ℚ
deriving DecidableEq, Repr

/-- The dict returned by `calculate_pricing`.  The failure dict carries no
`consignment_type` or `details` keys, modelled as `none`. -/
structure PricingResult where
  success : Bool
  error : Option String
  market_price : Option ℤ
  immediate_offer : Option ℤ
  consignment_liquidation : Option ℤ
  consignment_type : Option ConsignmentType
  details : Option PricingDetails
deriving DecidableEq, Repr

/-- `calculate_pricing(market_price)`.  The argument is `Option`-valued to
cover a `None` market price; `if not market_price or market_price <= 0`
is falsy exactly on `none` and on non-positive numbers.  The embedding is a
total function: the Python body raises no exception on any input. -/
def calculate_pricing (market_price : Option ℚ) : PricingResult :=
  match market_price with
  | none =>
      { success := false, error := some "Invalid market price",
        market_price := none, immediate_offer := none,
        consignment_liquidation := none, consignment_type := none,
        details := none }
  | some mp =>
      if mp ≤ 0 then
        { success := false, error := some "Invalid market price",
          market_price := none, immediate_offer := none,
          consignment_liquidation := none, consignment_type := none,
          details := none }
      else
        let ctype : ConsignmentType :=
          if CONSIGNMENT_THRESHOLD < mp then .PERCENTAGE_BASED else .FIXED_FEE
        { success := true, error := none,
          market_price := some (pyTrunc mp),
          immediate_offer := calculate_immediate_purchase_offer mp,
          consignment_liquidation := calculate_consignment_liquidation mp,
          consignment_type := some ctype,
          details := some
            { purchase_multiplier := PURCHASE_MULTIPLIER,
              consignment_threshold := CONSIGNMENT_THRESHOLD,
              commission_rate :=
                if ctype = .PERCENTAGE_BASED then some HIGH_TIER_TOTAL_COMMISSION else none,
              fixed_fee :=
                if ctype = .FIXED_FEE then some LOW_TIER_FIXED_FEE else none } }

/-- From the spec's words (for comparison with the source embedding):
`roundToNearest` with standard round-half-away-from-zero. -/
def roundHalfAwayFromZero (q : ℚ) : ℤ :=
  if 0 ≤ q then ⌊q + 1/2⌋ else ⌈q - 1/2⌉

/-- Truncation toward zero of a nonnegative value is the floor. -/
theorem pyTrunc_of_nonneg (q : ℚ) (h : 0 ≤ q) : pyTrunc q = ⌊q⌋ := by
  simp [pyTrunc, h]

/-- Truncation of an integer is that integer. -/
theorem pyTrunc_intCast (n : ℤ) : pyTrunc (n : ℚ) = n := by
  unfold pyTrunc
  split <;> simp

/-- C1: for every positive market price, the consignment liquidation and the
tier chosen by `calculate_pricing` satisfy: above 8,000,000 the liquidation is
`floor(marketPrice * 0.94645)` with tier `PERCENTAGE_BASED`; at or below
8,000,000 it is `max(0, marketPrice - 428400)` with tier `FIXED_FEE`. -/
theorem consignment_tier_formulas (mp : ℤ) :
    (8000000 < mp →
      calculate_consignment_liquidation (mp : ℚ)
        = some ⌊(mp : ℚ) * (94645/100000)⌋ ∧
      (calculate_pricing (some (mp : ℚ))).consignment_type
        = some ConsignmentType.PERCENTAGE_BASED) ∧
    (0 < mp → mp ≤ 8000000 →
      calculate_consignment_liquidation (mp : ℚ)
        = some (max 0 (mp - 428400)) ∧
      (calculate_pricing (some (mp : ℚ))).consignment_type
        = some ConsignmentType.FIXED_FEE) := by
  constructor
  · intro h
    have hmp0 : (0 : ℚ) < (mp : ℚ) := by
      have : (0:ℤ) < mp := lt_trans (by norm_num) h
      exact_mod_cast this
    have hth : CONSIGNMENT_THRESHOLD < (mp : ℚ) := by
      unfold CONSIGNMENT_THRESHOLD
      exact_mod_cast h
    have hle : ¬ ((mp : ℚ) ≤ 0) := not_le.mpr hmp0
    refine ⟨?_, ?_⟩
    · unfold calculate_consignment_liquidation
      rw [if_neg hle, if_pos hth]
      have hnn : (0 : ℚ) ≤ (mp : ℚ) * (1 - HIGH_TIER_TOTAL_COMMISSION) := by
        have : (0:ℚ) ≤ 1 - HIGH_TIER_TOTAL_COMMISSION := by
          unfold HIGH_TIER_TOTAL_COMMISSION; norm_num
        exact mul_nonneg (le_of_lt hmp0) this
      rw [pyTrunc_of_nonneg _ hnn]
      have : (1 : ℚ) - HIGH_TIER_TOTAL_COMMISSION = 94645/100000 := by
        unfold HIGH_TIER_TOTAL_COMMISSION; norm_num
      rw [this]
    · unfold calculate_pricing
      dsimp only
      rw [if_neg hle]
      simp [hth]
  · intro h0 h8
    have hmp0 : (0 : ℚ) < (mp : ℚ) := by exact_mod_cast h0
    have hth : ¬ (CONSIGNMENT_THRESHOLD < (mp : ℚ)) := by
      unfold CONSIGNMENT_THRESHOLD
      rw [not_lt]
      exact_mod_cast h8
    have hle : ¬ ((mp : ℚ) ≤ 0) := not_le.mpr hmp0
    refine ⟨?_, ?_⟩
    · unfold calculate_consignment_liquidation
      rw [if_neg hle, if_neg hth]
      have hcast : max 0 ((mp : ℚ) - LOW_TIER_FIXED_FEE)
          = ((max 0 (mp - 428400) : ℤ) : ℚ) := by
        unfold LOW_TIER_FIXED_FEE
        push_cast
        rfl
      rw [hcast, pyTrunc_intCast]
    · unfold calculate_pricing
      dsimp only
      rw [if_neg hle]
      simp [hth]

/-- C2 counterexample: at market price 1,250,000 the offer is
`0.52 * 1250000 = 650000`, whose quotient by 100,000 is exactly `6.5`;
Python's `round` (half to even) gives `6`, so the code returns 600,000, while
the claimed round-half-away-from-zero formula gives 700,000. -/
theorem immediate_offer_tie_counterexample :
    calculate_immediate_purchase_offer (1250000 : ℚ) = some 600000 ∧
    roundHalfAwayFromZero ((1250000 : ℚ) * (52/100) / 100000) * 100000
      = 700000 ∧
    calculate_immediate_purchase_offer (1250000 : ℚ)
      ≠ some (roundHalfAwayFromZero ((1250000 : ℚ) * (52/100) / 100000)
          * 100000) := by
  refine ⟨?_, ?_, ?_⟩
  · unfold calculate_immediate_purchase_offer round_to_hundred_thousand
      pythonRound PURCHASE_MULTIPLIER
    norm_num
  · unfold roundHalfAwayFromZero
    norm_num
  · unfold calculate_immediate_purchase_offer round_to_hundred_thousand
      pythonRound roundHalfAwayFromZero PURCHASE_MULTIPLIER
    norm_num

/-- Python's rounding lands within half a unit of its argument. -/
theorem pythonRound_near (q : ℚ) : |(pythonRound q : ℚ) - q| ≤ 1/2 := by
  have h0 : (⌊q⌋ : ℚ) ≤ q := Int.floor_le q
  have h1 : q < ⌊q⌋ + 1 := Int.lt_floor_add_one q
  unfold pythonRound
  dsimp only
  split
  · next h => rw [abs_le]; constructor <;> linarith
  · next h =>
      rw [not_lt] at h
      split
      · next h' => rw [abs_le]; push_cast; constructor <;> linarith
      · next h' =>
          rw [not_lt] at h'
          split <;> (rw [abs_le]; push_cast; constructor <;> linarith)

/-- C2 (amended): for every positive market price, the immediate purchase
offer is `round(marketPrice * 0.52 / 100000) * 100000` where ties round to
the nearest even integer (Python 3 rounding); the result is a multiple of
100,000, and it is a nearest such multiple: within 50,000 of the raw offer
`marketPrice * 0.52`. -/
theorem immediate_offer_formula (mp : ℤ) (h : 0 < mp) :
    calculate_immediate_purchase_offer (mp : ℚ)
      = some (pythonRound ((mp : ℚ) * (52/100) / 100000) * 100000) ∧
    (∃ k : ℤ, calculate_immediate_purchase_offer (mp : ℚ) = some (k * 100000)) ∧
    |((pythonRound ((mp : ℚ) * (52/100) / 100000) * 100000 : ℤ) : ℚ)
        - (mp : ℚ) * (52/100)| ≤ 50000 := by
  have hle : ¬ ((mp : ℚ) ≤ 0) := by
    rw [not_le]
    exact_mod_cast h
  refine ⟨?_, ?_, ?_⟩
  · unfold calculate_immediate_purchase_offer round_to_hundred_thousand
      PURCHASE_MULTIPLIER
    rw [if_neg hle]
  · refine ⟨pythonRound ((mp : ℚ) * PURCHASE_MULTIPLIER / 100000), ?_⟩
    unfold calculate_immediate_purchase_offer round_to_hundred_thousand
    rw [if_neg hle]
  · have hq : ((mp : ℚ) * (52/100) / 100000) * 100000 = (mp : ℚ) * (52/100) := by
      field_simp
      ring
    have hn := pythonRound_near ((mp : ℚ) * (52/100) / 100000)
    have hsplit :
        ((pythonRound ((mp : ℚ) * (52/100) / 100000) * 100000 : ℤ) : ℚ)
            - (mp : ℚ) * (52/100)
          = ((pythonRound ((mp : ℚ) * (52/100) / 100000) : ℚ)
              - (mp : ℚ) * (52/100) / 100000) * 100000 := by
      push_cast
      rw [sub_mul, hq]
    rw [hsplit, abs_mul]
    have h100 : |(100000 : ℚ)| = 100000 := by norm_num
    rw [h100]
    nlinarith [hn]

/-- C2 witness: at market price 3,000,000 the offer is
`round(15.6) * 100000 = 1,600,000`, a multiple of 100,000. -/
theorem immediate_offer_formula_witness :
    (0 : ℤ) < 3000000 ∧
    calculate_immediate_purchase_offer ((3000000 : ℤ) : ℚ) = some 1600000 := by
  refine ⟨by norm_num, ?_⟩
  have h := (immediate_offer_formula 3000000 (by norm_num)).1
  rw [h]
  unfold pythonRound
  norm_num

/-- C3: a `None`, zero or negative market price makes `calculate_pricing`
return the structured failure dict (success false, no offer fields) — the
embedding is a total function, so no exception is raised — and every
positive market price yields a success result. -/
theorem pricing_invalid_input_gate (mp? : Option ℚ) :
    ((mp? = none ∨ ∃ v, mp? = some v ∧ v ≤ 0) →
      calculate_pricing mp? =
        { success := false, error := some "Invalid market price",
          market_price := none, immediate_offer := none,
          consignment_liquidation := none, consignment_type := none,
          details := none }) ∧
    (∀ v : ℚ, mp? = some v → 0 < v →
      (calculate_pricing mp?).success = true) := by
  constructor
  · rintro (rfl | ⟨v, rfl, hv⟩)
    · rfl
    · unfold calculate_pricing
      dsimp only
      rw [if_pos hv]
  · rintro v rfl hv
    unfold calculate_pricing
    dsimp only
    rw [if_neg (not_le.mpr hv)]

/-! ## String-processing primitives

Python strings are embedded as `List Char`.  `str.strip`, `str.split`,
`str.lower`, `str.replace` and the specific regular expressions of
`src/execution/scrape_market_prices.py` are realized as character-list
scanners below.  ASCII whitespace and word characters match Python's
`\s` / `\w` on the ASCII inputs at issue. -/

/-- The characters Python's `\s` / `str.strip()` treat as whitespace
(ASCII range). -/
def isSpaceChar (c : Char) : Bool :=
  c = ' ' || c = '\t' || c = '\n' || c = '\r' ||
  c = Char.ofNat 11 || c = Char.ofNat 12

/-- Python's `\w` (ASCII range): letters, digits, underscore. -/
def isWordChar (c : Char) : Bool := c.isAlphanum || c = '_'

/-- `str.strip()`: remove leading and trailing whitespace. -/
def stripWs (s : List Char) : List Char :=
  ((s.dropWhile isSpaceChar).reverse.dropWhile isSpaceChar).reverse

/-- `str.strip('_')`: remove leading and trailing underscores. -/
def stripUnderscores (s : List Char) : List Char :=
  ((s.dropWhile (fun c => c = '_')).reverse.dropWhile (fun c => c = '_')).reverse

/-- Helper for `pySplit`: accumulates the current word reversed. -/
def pySplitAux : List Char → List Char → List (List Char)
  | cur, [] => if cur.isEmpty then [] else [cur.reverse]
  | cur, c :: cs =>
    if isSpaceChar c then
      if cur.isEmpty then pySplitAux [] cs else cur.reverse :: pySplitAux [] cs
    else pySplitAux (c :: cur) cs

/-- `str.split()`: split on whitespace runs, dropping empty pieces. -/
def pySplit (s : List Char) : List (List Char) := pySplitAux [] s

/-- Work loop of `collapseUnderscores`, structurally recursive on a fuel
that bounds the number of scan steps; every step consumes at least one
character, so a fuel equal to the input length never runs out. -/
def collapseUnderscoresGo : Nat → List Char → List Char
  | _, [] => []
  | 0, l => l
  | fuel + 1, c :: cs =>
    if c = '_' then
      '_' :: collapseUnderscoresGo fuel (cs.dropWhile (fun x => x = '_'))
    else c :: collapseUnderscoresGo fuel cs

/-- `re.sub(r'_+', '_', s)`: collapse each run of underscores to one. -/
def collapseUnderscores (s : List Char) : List Char :=
  collapseUnderscoresGo s.length s

/-- Whether an entire character list matches `\s+\d+\.\d+` (the body of the
first engine-displacement pattern, which in the source is anchored with `$`).
All three quantified pieces are forced maximal because adjacent character
classes are disjoint, so the match is deterministic. -/
def engineFullMatch (cs : List Char) : Bool :=
  let ws := cs.takeWhile isSpaceChar
  let r1 := cs.dropWhile isSpaceChar
  let d1 := r1.takeWhile Char.isDigit
  let r2 := r1.dropWhile Char.isDigit
  !ws.isEmpty && !d1.isEmpty &&
    (match r2 with
     | '.' :: r3 => !r3.isEmpty && r3.all Char.isDigit
     | _ => false)

/-- Scan for the leftmost start of a `\s+\d+\.\d+` match that reaches the
end of the list; everything from there on is removed. -/
def subEngineEndCore : List Char → List Char
  | [] => []
  | c :: cs =>
    if engineFullMatch (c :: cs) then [] else c :: subEngineEndCore cs

/-- `re.sub(r'\s+\d+\.\d+$', '', s)`.  Python's `$` (without `MULTILINE`)
matches at the end of the string and also just before one trailing
newline, so a final newline is held aside. -/
def subEngineEnd (s : List Char) : List Char :=
  if s.getLast? = some '\n' then subEngineEndCore s.dropLast ++ ['\n']
  else subEngineEndCore s

/-- Match of `\s+\d+\.\d+\s` starting exactly at `c :: cs`; returns how many
characters of `cs` the match consumes beyond `c` (the match is deterministic
for the same disjointness reason as `engineFullMatch`). -/
def engineMidMatch (c : Char) (cs : List Char) : Option Nat :=
  if isSpaceChar c then
    let ws := cs.takeWhile isSpaceChar
    let r1 := cs.dropWhile isSpaceChar
    let d1 := r1.takeWhile Char.isDigit
    let r2 := r1.dropWhile Char.isDigit
    match r2 with
    | '.' :: r3 =>
      let d2 := r3.takeWhile Char.isDigit
      match r3.dropWhile Char.isDigit with
      | w :: _ =>
        if !d1.isEmpty && !d2.isEmpty && isSpaceChar w then
          some (ws.length + d1.length + 1 + d2.length + 1)
        else none
      | [] => none
    | _ => none
  else none

/-- Work loop of `subEngineMid` on a step-counting fuel (a fuel equal to
the input length suffices, each step consuming at least one character). -/
def subEngineMidGo : Nat → List Char → List Char
  | _, [] => []
  | 0, l => l
  | fuel + 1, c :: cs =>
    match engineMidMatch c cs with
    | some k => ' ' :: subEngineMidGo fuel (cs.drop k)
    | none => c :: subEngineMidGo fuel cs

/-- `re.sub(r'\s+\d+\.\d+\s', ' ', s)`: replace every non-overlapping
leftmost match by one space, continuing the scan after the match. -/
def subEngineMid (s : List Char) : List Char := subEngineMidGo s.length s

/-- `re.sub(r'\b<word>\b', '', s)` for a literal word of word-characters:
remove every non-overlapping occurrence of `w` that sits between word
boundaries.  `prevWord` records whether the previously scanned character
was a word character (initially the scan is at the start of the string). -/
def removeWordAux (w : List Char) : Nat → Bool → List Char → List Char
  | _, _, [] => []
  | 0, _, l => l
  | fuel + 1, prevWord, c :: cs =>
    if (!w.isEmpty && !prevWord && w.isPrefixOf (c :: cs) &&
        (match (c :: cs).drop w.length with
         | [] => true
         | d :: _ => !isWordChar d)) = true then
      removeWordAux w fuel true ((c :: cs).drop w.length)
    else c :: removeWordAux w fuel (isWordChar c) cs

/-- `re.sub(r'\b<word>\b', '', s)` over the whole string (fuel as above:
a nonempty `w` makes every step consume at least one character). -/
def removeWord (w : List Char) (s : List Char) : List Char :=
  removeWordAux w s.length false s

/-- The stoplist of trim/package tokens, in the source's order. -/
def TRIM_LEVELS : List (List Char) :=
  ["ls", "lt", "ltz", "se", "ex", "dx", "gl", "gls", "ii", "iii", "iv",
   "cargo", "box", "base", "full", "limited", "sport", "premium"].map
    String.toList

/-- `' '.join(words)` for the truncation step. -/
def joinWithSpace (ws : List (List Char)) : List Char :=
  List.intercalate [' '] ws

/-- `normalize_model_for_url(model)` from
`src/execution/scrape_market_prices.py`: lower-case and strip; drop a
trailing `\s+\d+\.\d+` (with `$` also matching before a final newline);
replace embedded `\s+\d+\.\d+\s` by a space; delete the stoplist tokens at
word boundaries; strip; keep only the first two whitespace-separated words
when there are more than two; turn hyphens and spaces into underscores;
collapse underscore runs; strip underscores. -/
def normalize_model_for_url (model : List Char) : List Char :=
  let m1 := stripWs (model.map Char.toLower)
  let m2 := subEngineEnd m1
  let m3 := subEngineMid m2
  let m4 := TRIM_LEVELS.foldl (fun s w => removeWord w s) m3
  let m5 := stripWs m4
  let words := pySplit m5
  let m6 := if words.length > 2 then joinWithSpace (words.take 2) else m5
  let m7 := m6.map (fun c => if c = '-' then '_' else if c = ' ' then '_' else c)
  stripUnderscores (collapseUnderscores m7)

/-- C9 counterexample: the Model-Name Normalizer is not idempotent.
`normalize("_ls") = "ls"` — the stoplist token `ls` is shielded by the
word-character underscore on the first pass and the underscore is then
stripped — but `normalize("ls") = ""`. -/
theorem normalize_not_idempotent :
    normalize_model_for_url (normalize_model_for_url ("_ls".toList))
      ≠ normalize_model_for_url ("_ls".toList) := by decide

/-- C9 (amended): `normalize("CX-5")` is the hyphen-free token `cx_5`, and
re-normalizing that token returns it unchanged; full idempotence over all
strings fails (see the counterexample). -/
theorem normalize_cx5_fixed_point :
    normalize_model_for_url ("CX-5".toList) = "cx_5".toList ∧
    '-' ∉ normalize_model_for_url ("CX-5".toList) ∧
    normalize_model_for_url (normalize_model_for_url ("CX-5".toList))
      = normalize_model_for_url ("CX-5".toList) := by decide

/-! ## Monetary text parser (`search_market_price`, strategies 1, 2 and 4)

Pattern `\$\s*([\d]{1,3}(?:\.[\d]{3})+)` with `re.findall`: at a `$`,
optional whitespace, one to three digits, then one or more groups of a dot
and exactly three digits, all greedy.  Because the digit run before the
first dot is maximal (a shorter choice is followed by a digit, not a dot),
the match at a given position is deterministic; `re.findall` scans left to
right, resuming after each match and advancing one character on failure. -/

/-- Maximal `(?:\.[\d]{3})+` parse: returns the digits of the groups
(dots dropped, as the source later does `match.replace('.', '')`) and the
number of characters consumed. -/
def dotGroups : List Char → List Char × Nat
  | '.' :: a :: b :: c :: rest =>
    if a.isDigit && b.isDigit && c.isDigit then
      let (g, n) := dotGroups rest
      (a :: b :: c :: g, n + 4)
    else ([], 0)
  | _ => ([], 0)

/-- Scan loop of `re.findall(r'\$\s*([\d]{1,3}(?:\.[\d]{3})+)', text)`,
returning each captured amount as its digit characters.  Fuel as above
(one character at least is consumed per step, so the input length is
enough). -/
def scanAmountsGo : Nat → List Char → List (List Char)
  | _, [] => []
  | 0, _ => []
  | fuel + 1, c :: cs =>
    if c = '$' then
      let ws := cs.takeWhile isSpaceChar
      let afterWs := cs.dropWhile isSpaceChar
      let run := afterWs.takeWhile Char.isDigit
      let (gds, gn) := dotGroups (afterWs.dropWhile Char.isDigit)
      if 1 ≤ run.length && run.length ≤ 3 && !gds.isEmpty then
        (run ++ gds) :: scanAmountsGo fuel (cs.drop (ws.length + run.length + gn))
      else scanAmountsGo fuel cs
    else scanAmountsGo fuel cs

/-- Decimal value of a digit string. -/
def digitsToNat (l : List Char) : Nat :=
  l.foldl (fun acc c => 10 * acc + (c.toNat - 48)) 0

/-- All amounts the price pattern finds in a page text, as integers
(`int(match.replace('.', ''))`). -/
def extractAmounts (text : List Char) : List Nat :=
  (scanAmountsGo text.length text).map digitsToNat

/-- The plausibility filter `1500000 <= price <= 100000000` applied while
collecting matches. -/
def bandFilter (l : List Nat) : List Nat :=
  l.filter (fun p => 1500000 ≤ p && p ≤ 100000000)

/-- A strategy's final candidate set: plausibility-filtered amounts with
duplicates collapsed (`list(set(prices_found))`; the set's iteration order
is irrelevant to every use — count, sum, min, max). -/
def strategyCandidates (text : List Char) : List Nat :=
  (bandFilter (extractAmounts text)).dedup

/-- The concrete text of the spec's parser example: it contains exactly the
monetary strings `$1.200.000` and `$999`. -/
def parserExampleText : List Char :=
  "oferta: $1.200.000 antes $999 llame ya".toList

/-- C7 counterexample: on text containing exactly `$1.200.000` and `$999`
the candidate set does not keep 1,200,000 — the plausibility band's lower
bound is 1,500,000, so the parsed amount 1,200,000 is discarded. -/
theorem parser_example_drops_low_amount :
    1200000 ∉ strategyCandidates parserExampleText := by decide

/-- C7 (amended): on that text the pattern match yields only `1200000`
(`$999` has no thousands group, so it never matches), and the plausibility
band `1,500,000 ≤ p ≤ 100,000,000` then discards 1,200,000 as well, leaving
the empty candidate set. -/
theorem parser_example_empty_candidates :
    extractAmounts parserExampleText = [1200000] ∧
    strategyCandidates parserExampleText = [] := by decide

/-! ## MercadoLibre strategy (`search_market_price`, strategy 3) -/

/-- First match of `\b(19|20)\d{2}\b` (`re.search`), as its four matched
characters.  `prevWord` carries whether the previously scanned character is
a word character, giving the left word boundary; the right boundary
requires the next character to be absent or a non-word character. -/
def findYearChars : Bool → List Char → Option (List Char)
  | _, [] => none
  | prevW, c :: cs =>
    (if !prevW then
      match c :: cs with
      | c1 :: c2 :: c3 :: c4 :: rest =>
        if ((c1 = '1' && c2 = '9') || (c1 = '2' && c2 = '0')) &&
            c3.isDigit && c4.isDigit &&
            (match rest with | [] => true | d :: _ => !isWordChar d) then
          some [c1, c2, c3, c4]
        else none
      | _ => none
    else none).orElse (fun _ => findYearChars (isWordChar c) cs)

/-- First match of `\$\s*[\d.,]+` (`re.search`), reduced — as the source
does with `filter(str.isdigit, ...)` — to the digit characters of the
matched text. -/
def findDollarDigits : List Char → Option (List Char)
  | [] => none
  | c :: cs =>
    if c = '$' then
      let run := (cs.dropWhile isSpaceChar).takeWhile
        (fun x => x.isDigit || x = '.' || x = ',')
      if run.isEmpty then findDollarDigits cs
      else some (run.filter Char.isDigit)
    else findDollarDigits cs

/-- One MercadoLibre listing text (lines 239-255 of
`scrape_market_prices.py`): a year within the tolerance window, then a
price of at least seven digits inside the plausibility band. -/
def mlListingPrice (min_year max_year : ℤ) (text : List Char) : Option Nat :=
  match (findYearChars false text).map digitsToNat with
  | some y =>
      if min_year ≤ (y : ℤ) && (y : ℤ) ≤ max_year then
        match findDollarDigits text with
        | some ds =>
            if 7 ≤ ds.length then
              let price := digitsToNat ds
              if 1500000 ≤ price && price ≤ 100000000 then some price else none
            else none
        | none => none
      else none
  | none => none

/-- Python `int(str)` on a whitespace-trimmed optionally signed decimal
string (digit-group underscores are not modelled; no caller passes them). -/
def pyIntParse (s : List Char) : Option ℤ :=
  match stripWs s with
  | '-' :: ds =>
      if !ds.isEmpty && ds.all Char.isDigit then some (-(digitsToNat ds : ℤ))
      else none
  | '+' :: ds =>
      if !ds.isEmpty && ds.all Char.isDigit then some ((digitsToNat ds : ℤ))
      else none
  | ds =>
      if !ds.isEmpty && ds.all Char.isDigit then some ((digitsToNat ds : ℤ))
      else none

/-- The year-tolerance window: `int(year) ± 2`, or `(1990, 2030)` when the
year string does not parse. -/
def yearWindow (year : List Char) : ℤ × ℤ :=
  match pyIntParse year with
  | some t => (t - 2, t + 2)
  | none => (1990, 2030)

/-! ## `search_market_price` (`src/execution/scrape_market_prices.py`) -/

/-- The result dict of `search_market_price`.  `num_listings` is absent
(`none`) until a strategy succeeds; `listings` is initialized to `[]` and
never filled by the source. -/
structure MarketResult where
  success : Bool
  make : List Char
  model : List Char
  year : List Char
  listings : List Nat
  average_price : Option Nat
  min_price : Option Nat
  max_price : Option Nat
  source : Option String
  error : Option String
  num_listings : Option Nat
deriving DecidableEq, Repr

/-- The initial result dict (lines 66-77). -/
def initResult (make model year : List Char) : MarketResult :=
  { success := false, make := make, model := model, year := year,
    listings := [], average_price := none, min_price := none,
    max_price := none, source := none, error := none, num_listings := none }

/-- The success block shared by all four strategies (e.g. lines 145-155):
average is `int(sum/len)` over the deduplicated candidates — float division
idealized as exact, truncation of a nonnegative value is Nat division —
with their min, max and count. -/
def fillSuccess (r : MarketResult) (src : String) (pf : List Nat) :
    MarketResult :=
  { r with
    success := true, source := some src,
    average_price := some (pf.sum / pf.length),
    min_price := pf.min?, max_price := pf.max?,
    num_listings := some pf.length }

/-- Candidates of an autofact/chileautos-style strategy: `none` models the
strategy's fetch raising (swallowed by its `except`), `some text` the page
text it parsed. -/
def fetchCandidates (fetched : Option (List Char)) : List Nat :=
  match fetched with
  | some text => strategyCandidates text
  | none => []

/-- Candidates of the MercadoLibre strategy from its listing texts. -/
def mlCandidates (min_year max_year : ℤ)
    (fetched : Option (List (List Char))) : List Nat :=
  match fetched with
  | some listingTexts =>
      (listingTexts.filterMap (mlListingPrice min_year max_year)).dedup
  | none => []

/-- Candidates of strategy 2, which only runs when the simplified model
token differs from the normalized one (line 165). -/
def strategy2Candidates (model_simple model_url : List Char)
    (fetch2 : Option (List Char)) : List Nat :=
  if model_simple ≠ model_url then fetchCandidates fetch2 else []

/-- `search_market_price(make, model, year)`: the four provider strategies
in source order, stopping at the first nonempty candidate set; an empty
`model.split()` raises `IndexError` at line 164, caught by the outer
`except` as `Unexpected error: ...`; if no strategy succeeds the result is
the failure dict with `No prices found from any source`.  Browser startup
and the page fetches are the `fetch*` oracles (`none` = that strategy's
block raised). -/
def search_market_price (make model year : List Char)
    (fetch1 fetch2 fetch4 : Option (List Char))
    (fetch3 : Option (List (List Char))) : MarketResult :=
  let result := initResult make model year
  let model_url := normalize_model_for_url model
  let c1 := fetchCandidates fetch1
  if !c1.isEmpty then fillSuccess result "autofact.cl" c1
  else
    match pySplit model with
    | [] => { result with error := some "Unexpected error: list index out of range" }
    | w :: _ =>
      let model_simple :=
        (w.map Char.toLower).map (fun c => if c = '-' then '_' else c)
      let c2 := strategy2Candidates model_simple model_url fetch2
      if !c2.isEmpty then fillSuccess result "autofact.cl" c2
      else
        let mm := yearWindow year
        let c3 := mlCandidates mm.1 mm.2 fetch3
        if !c3.isEmpty then fillSuccess result "mercadolibre.cl" c3
        else
          let c4 := fetchCandidates fetch4
          if !c4.isEmpty then fillSuccess result "chileautos.cl" c4
          else { result with error := some "No prices found from any source" }

/-- C4 counterexample: with every provider yielding zero plausible
candidates (pages and listings with no parsable price), the code returns
the failure dict — no depreciation-fallback estimate exists anywhere in
`search_market_price`: `success` is false and no price field is set. -/
theorem no_depreciation_fallback :
    (search_market_price ("toyota".toList) ("corolla".toList) ("2015".toList)
        (some ("sin resultados para su busqueda".toList))
        (some ("no hay avisos".toList))
        (some ("tampoco hay avisos aqui".toList))
        (some ["un aviso sin precio ni datos".toList])) =
      { initResult ("toyota".toList) ("corolla".toList) ("2015".toList) with
        error := some "No prices found from any source" } := by decide

/-- C4 (amended): whenever every strategy's candidate set is empty (and the
model string has at least one word, so line 164 does not raise), the
resolution returns the failure dict `success=false`,
`error="No prices found from any source"`, with no estimate fields. -/
theorem all_providers_empty_returns_failure (make model year : List Char)
    (fetch1 fetch2 fetch4 : Option (List Char))
    (fetch3 : Option (List (List Char)))
    (hm : pySplit model ≠ [])
    (h1 : fetchCandidates fetch1 = [])
    (h2 : fetchCandidates fetch2 = [])
    (h3 : mlCandidates (yearWindow year).1 (yearWindow year).2 fetch3 = [])
    (h4 : fetchCandidates fetch4 = []) :
    search_market_price make model year fetch1 fetch2 fetch4 fetch3
      = { initResult make model year with
          error := some "No prices found from any source" } := by
  have h2' : ∀ a b : List Char, strategy2Candidates a b fetch2 = [] := by
    intro a b
    unfold strategy2Candidates
    rw [h2]
    simp
  unfold search_market_price
  cases hps : pySplit model with
  | nil => exact absurd hps hm
  | cons w ws =>
    simp only [hps, h1, h2' _ _, h3, h4]
    rfl

/-- C4 witness: a concrete run of the amended theorem — all four fetches
raise, the result is the `No prices found from any source` failure. -/
theorem all_providers_empty_returns_failure_witness :
    pySplit ("corolla".toList) ≠ [] ∧
    search_market_price ("toyota".toList) ("corolla".toList) ("2015".toList)
        none none none none
      = { initResult ("toyota".toList) ("corolla".toList) ("2015".toList) with
          error := some "No prices found from any source" } :=
  ⟨by decide,
   all_providers_empty_returns_failure ("toyota".toList) ("corolla".toList)
     ("2015".toList) none none none none (by decide) rfl rfl rfl rfl⟩

/-- Lower bound: a common lower bound of a list's members bounds the sum
from below, `length * m ≤ sum`. -/
theorem length_mul_le_sum (l : List Nat) (m : Nat) (h : ∀ x ∈ l, m ≤ x) :
    l.length * m ≤ l.sum := by
  induction l with
  | nil => simp
  | cons a as ih =>
    have ha : m ≤ a := h a (List.mem_cons_self a as)
    have has := ih (fun x hx => h x (List.mem_cons_of_mem _ hx))
    simp only [List.length_cons, List.sum_cons, Nat.succ_mul]
    omega

/-- Upper bound: a common upper bound of a list's members bounds the sum
from above, `sum ≤ length * M`. -/
theorem sum_le_length_mul (l : List Nat) (m : Nat) (h : ∀ x ∈ l, x ≤ m) :
    l.sum ≤ l.length * m := by
  induction l with
  | nil => simp
  | cons a as ih =>
    have ha : a ≤ m := h a (List.mem_cons_self a as)
    have has := ih (fun x hx => h x (List.mem_cons_of_mem _ hx))
    simp only [List.length_cons, List.sum_cons, Nat.succ_mul]
    omega

/-- For a nonempty candidate list, `min? ≤ sum / length ≤ max?`. -/
theorem min_le_avg_le_max (pf : List Nat) (h : pf ≠ []) :
    ∃ mn mx, pf.min? = some mn ∧ pf.max? = some mx ∧
      mn ≤ pf.sum / pf.length ∧ pf.sum / pf.length ≤ mx := by
  obtain ⟨mn, hmn⟩ : ∃ mn, pf.min? = some mn := by
    cases hl : pf.min? with
    | none => exact absurd (List.min?_eq_none_iff.mp hl) h
    | some a => exact ⟨a, rfl⟩
  obtain ⟨mx, hmx⟩ : ∃ mx, pf.max? = some mx := by
    cases hl : pf.max? with
    | none => exact absurd (List.max?_eq_none_iff.mp hl) h
    | some a => exact ⟨a, rfl⟩
  have hmn' := List.min?_eq_some_iff'.mp hmn
  have hmx' := List.max?_eq_some_iff'.mp hmx
  have hlen : 0 < pf.length := List.length_pos.mpr h
  refine ⟨mn, mx, hmn, hmx, ?_, ?_⟩
  · rw [Nat.le_div_iff_mul_le hlen]
    have := length_mul_le_sum pf mn hmn'.2
    rwa [Nat.mul_comm] at this
  · calc pf.sum / pf.length ≤ pf.length * mx / pf.length :=
          Nat.div_le_div_right (sum_le_length_mul pf mx hmx'.2)
    _ = mx := by rw [Nat.mul_comm, Nat.mul_div_cancel _ hlen]

/-- A list whose `isEmpty` test fails is not `[]`. -/
theorem ne_nil_of_not_isEmpty {l : List Nat} (h : (!l.isEmpty) = true) :
    l ≠ [] := by
  cases l <;> simp_all

/-- Every result of `search_market_price` is either a `fillSuccess` over a
nonempty candidate list or carries no `num_listings` key. -/
theorem search_market_price_shape (make model year : List Char)
    (fetch1 fetch2 fetch4 : Option (List Char))
    (fetch3 : Option (List (List Char))) :
    (∃ src pf, pf ≠ [] ∧
      search_market_price make model year fetch1 fetch2 fetch4 fetch3
        = fillSuccess (initResult make model year) src pf) ∨
    (search_market_price make model year fetch1 fetch2 fetch4 fetch3).num_listings
      = none := by
  unfold search_market_price
  dsimp only
  split
  · next hc =>
      exact Or.inl ⟨_, _, ne_nil_of_not_isEmpty hc, rfl⟩
  · split
    · exact Or.inr rfl
    · split
      · next hc =>
          exact Or.inl ⟨_, _, ne_nil_of_not_isEmpty hc, rfl⟩
      · split
        · next hc =>
            exact Or.inl ⟨_, _, ne_nil_of_not_isEmpty hc, rfl⟩
        · split
          · next hc =>
              exact Or.inl ⟨_, _, ne_nil_of_not_isEmpty hc, rfl⟩
          · exact Or.inr rfl

/-- C8: every estimate with a positive listing count satisfies
`minPrice ≤ averagePrice ≤ maxPrice` (the average being the truncated mean
of the deduplicated candidate set, its min and max being the set's). -/
theorem estimate_min_avg_max_invariant (make model year : List Char)
    (fetch1 fetch2 fetch4 : Option (List Char))
    (fetch3 : Option (List (List Char))) (n : Nat)
    (hn : (search_market_price make model year fetch1 fetch2 fetch4
            fetch3).num_listings = some n)
    (hpos : 0 < n) :
    ∃ mn a mx,
      (search_market_price make model year fetch1 fetch2 fetch4
        fetch3).min_price = some mn ∧
      (search_market_price make model year fetch1 fetch2 fetch4
        fetch3).average_price = some a ∧
      (search_market_price make model year fetch1 fetch2 fetch4
        fetch3).max_price = some mx ∧
      mn ≤ a ∧ a ≤ mx := by
  rcases search_market_price_shape make model year fetch1 fetch2 fetch4 fetch3
    with ⟨src, pf, hpf, heq⟩ | hnone
  · obtain ⟨mn, mx, hmn, hmx, h1, h2⟩ := min_le_avg_le_max pf hpf
    exact ⟨mn, pf.sum / pf.length, mx, by rw [heq]; simpa [fillSuccess],
      by rw [heq]; simp [fillSuccess],
      by rw [heq]; simpa [fillSuccess], h1, h2⟩
  · rw [hnone] at hn
    exact absurd hn (by simp)

/-- C8 witness: a concrete page with two prices; the estimate has
`num_listings = 2 > 0` and its min, average and max are ordered. -/
theorem estimate_min_avg_max_invariant_witness :
    (search_market_price ("toyota".toList) ("corolla".toList) ("2015".toList)
        (some ("a $2.500.000 b $3.500.000".toList)) none none
        none).num_listings = some 2 ∧ 0 < 2 ∧
    ∃ mn a mx,
      (search_market_price ("toyota".toList) ("corolla".toList)
        ("2015".toList) (some ("a $2.500.000 b $3.500.000".toList)) none none
        none).min_price = some mn ∧
      (search_market_price ("toyota".toList) ("corolla".toList)
        ("2015".toList) (some ("a $2.500.000 b $3.500.000".toList)) none none
        none).average_price = some a ∧
      (search_market_price ("toyota".toList) ("corolla".toList)
        ("2015".toList) (some ("a $2.500.000 b $3.500.000".toList)) none none
        none).max_price = some mx ∧
      mn ≤ a ∧ a ≤ mx :=
  ⟨by decide, by decide,
   estimate_min_avg_max_invariant ("toyota".toList) ("corolla".toList)
     ("2015".toList) (some ("a $2.500.000 b $3.500.000".toList)) none none
     none 2 (by decide) (by decide)⟩

/-! ## Daily quota gate (`src/execution/rate_limiter.py`, `RateLimiter`)

`check_and_increment` is embedded as a function of the store's observable
behavior: `row` is today's counter row (`none` = absent), `readFails` /
`writeFails` say whether the select / the insert-or-update raises a store
error (an infrastructure error, whose message does not contain
`Daily API limit`).  The pair returned is the outcome and the row after
the call. -/

/-- The outcome of `check_and_increment`: `admitted` is `return True`;
`quotaExceeded` is the distinct `Daily API limit of ... reached` exception,
re-raised past the `except` filter to the caller. -/
inductive GateResult where
  | admitted
  | quotaExceeded
deriving DecidableEq, Repr

/-- `RateLimiter.check_and_increment` (lines 20-62): without a configured
client, admit; a failed read is caught and fails open; an absent row is
created with count 1; a count at or above the limit raises the quota
exception (which the `except` re-raises); otherwise the count is
incremented (a failed write is caught and fails open, leaving the row). -/
def check_and_increment (limit : Nat) (configured : Bool) (row : Option Nat)
    (readFails writeFails : Bool) : GateResult × Option Nat :=
  if !configured then (.admitted, row)
  else if readFails then (.admitted, row)
  else
    match row with
    | none => (.admitted, if writeFails then none else some 1)
    | some c =>
        if c ≥ limit then (.quotaExceeded, row)
        else (.admitted, if writeFails then row else some (c + 1))

/-- C6: the quota gate creates today's counter at 1 and admits when no row
exists; increments and admits below the limit; raises the distinct
quota-exceeded error at or above the limit; and admits (fails open) when
the store itself fails. -/
theorem quota_gate_behavior (limit c : Nat) (row : Option Nat) :
    (check_and_increment limit true none false false
      = (GateResult.admitted, some 1)) ∧
    (c < limit →
      check_and_increment limit true (some c) false false
        = (GateResult.admitted, some (c + 1))) ∧
    (limit ≤ c →
      check_and_increment limit true (some c) false false
        = (GateResult.quotaExceeded, some c)) ∧
    (check_and_increment limit true row true false
      = (GateResult.admitted, row)) := by
  refine ⟨rfl, ?_, ?_, rfl⟩
  · intro h
    unfold check_and_increment
    simp [Nat.not_le.mpr h]
  · intro h
    unfold check_and_increment
    simp [h]

/-! ## Market-price endpoint (`src/app.py`, `get_market_price`)

The endpoint's externally observable calls are recorded in a trace.  The
valuation oracle stands for `get_vehicle_valuation`: `Except.error e` is a
raised exception with message `e`, `Except.ok avg?` is a returned JSON
whose `avgPrice` field is `avg?` (`gemini_data.get("avgPrice", 0)` turns an
absent field into 0). -/

/-- The external calls the endpoint can make.  `quotaCheck` would be a call
to `RateLimiter.check_and_increment`; `geminiCall` is the call to
`get_vehicle_valuation`. -/
inductive ApiEvent where
  | quotaCheck
  | geminiCall
deriving DecidableEq, Repr

/-- Python truthiness of a request parameter for `all([make, model, year])`:
absent or empty-string parameters are falsy. -/
def present : Option String → Bool
  | some s => !s.isEmpty
  | none => false

/-- The endpoint's JSON reply (status code, success flag, error, and the
pricing block computed by the pricing engine; the vehicle/market echo
fields are unclaimed and omitted). -/
structure ApiResponse where
  status : Nat
  success : Bool
  error : Option String
  pricing : Option PricingResult
deriving DecidableEq, Repr

/-- `get_market_price` (`src/app.py` lines 75-149): parameter check, then
directly the Gemini valuation and the pricing engine. The function body
contains no rate-limiter call (`rate_limiter` is never imported by
`app.py`), so the only traced event is `geminiCall`. -/
def get_market_price (make model year : Option String)
    (valuation : Except String (Option ℤ)) : ApiResponse × List ApiEvent :=
  if !(present make && present model && present year) then
    ({ status := 400, success := false,
       error := some "Missing required parameters: make, model, year",
       pricing := none }, [])
  else
    match valuation with
    | .error e =>
        ({ status := 500, success := false, error := some e,
           pricing := none }, [.geminiCall])
    | .ok avg? =>
        let avg_price : ℤ := avg?.getD 0
        if avg_price ≤ 0 then
          ({ status := 500, success := false,
             error := some "Gemini could not determine market price",
             pricing := none }, [.geminiCall])
        else
          ({ status := 200, success := true, error := none,
             pricing := some (calculate_pricing (some (avg_price : ℚ))) },
           [.geminiCall])

/-- C5 counterexample: a concrete, fully valid request reaches the Gemini
provider with no quota-gate admission before it — the trace is exactly
`[geminiCall]` and contains no `quotaCheck`. -/
theorem endpoint_provider_without_quota_check :
    (get_market_price (some "MAZDA") (some "CX-5") (some "2018")
        (Except.ok (some 9000000))).2 = [ApiEvent.geminiCall] ∧
    ApiEvent.quotaCheck ∉
      (get_market_price (some "MAZDA") (some "CX-5") (some "2018")
        (Except.ok (some 9000000))).2 := by decide

/-- C5 (amended): the market-price endpoint never invokes the Daily Quota
Gate — no trace contains a `quotaCheck` — and every request with all three
parameters present invokes the price provider ungated. -/
theorem endpoint_never_checks_quota (make model year : Option String)
    (valuation : Except String (Option ℤ)) :
    ApiEvent.quotaCheck ∉ (get_market_price make model year valuation).2 ∧
    ((present make && present model && present year) = true →
      (get_market_price make model year valuation).2 = [ApiEvent.geminiCall]) := by
  unfold get_market_price
  constructor
  · split
    · simp
    · rcases valuation with e | avg?
      · simp
      · dsimp only
        split <;> simp
  · intro h
    rw [if_neg (by simp [h])]
    rcases valuation with e | avg?
    · rfl
    · dsimp only
      split <;> rfl

/-! ## Plate scraper (`src/execution/scrape_patentechile.py`,
`get_car_info_by_plate`)

The browser steps are external; the embedding starts from what the parse
sees: either no `tbl-results` table, or its rows.  A row is a section
header (one `td` with `colspan="2"`), a two-cell label/value pair, or
anything else (skipped). -/

/-- A row of the `tbl-results` table, by its `td` layout. -/
inductive TableRow where
  | sectionHeader (text : List Char)
  | singleCell (text : List Char)
  | pair (label value : List Char)
  | other
deriving DecidableEq, Repr

/-- The result dict of `get_car_info_by_plate`. -/
structure PlateResult where
  success : Bool
  plate : List Char
  make : Option (List Char)
  model : Option (List Char)
  year : Option (List Char)
  owner_name : Option (List Char)
  owner_rut : Option (List Char)
  error : Option String
deriving DecidableEq, Repr

/-- Python's `in` on strings: `needle` occurs as a contiguous substring. -/
def containsSub (needle : List Char) : List Char → Bool
  | [] => needle.isEmpty
  | c :: cs => needle.isPrefixOf (c :: cs) || containsSub needle cs

/-- One iteration of the row loop (lines 132-160).  The state is the
`in_vehicle_section` flag and the result so far.  Labels are stripped,
cleared of `\xa0` and lowered; the year is taken from the first
`\b(19|20)\d{2}\b` match and only inside the vehicle-data section. -/
def processRow (st : Bool × PlateResult) (row : TableRow) :
    Bool × PlateResult :=
  let inVeh := st.1
  let r := st.2
  match row with
  | .sectionHeader text =>
      (containsSub ("vehicular".toList) ((stripWs text).map Char.toLower), r)
  | .pair label value =>
      let lab := ((stripWs label).filter (fun c => c ≠ Char.ofNat 160)).map
        Char.toLower
      let v := stripWs value
      if containsSub ("marca".toList) lab then (inVeh, { r with make := some v })
      else if containsSub ("modelo".toList) lab then
        (inVeh, { r with model := some v })
      else if containsSub ("año".toList) lab && inVeh then
        match findYearChars false v with
        | some y => (inVeh, { r with year := some y })
        | none => (inVeh, r)
      else if containsSub ("nombre".toList) lab then
        (inVeh, { r with owner_name := some v })
      else if containsSub ("rut".toList) lab then
        (inVeh, { r with owner_rut := some v })
      else (inVeh, r)
  | _ => (inVeh, r)

/-- Python truthiness of an extracted field: set and nonempty. -/
def truthyStr : Option (List Char) → Bool
  | some v => !v.isEmpty
  | none => false

/-- The initial result dict (lines 31-40), after `plate.upper().strip()`. -/
def initPlateResult (plate : List Char) : PlateResult :=
  { success := false, plate := stripWs (plate.map Char.toUpper),
    make := none, model := none, year := none, owner_name := none,
    owner_rut := none, error := none }

/-- The table-parsing branch (lines 125-168): run the row loop, then
`success = True` exactly when `make or model or year` is truthy, else the
`No vehicle data found` error. -/
def parseResultsTable (plate : List Char) (rows : List TableRow) :
    PlateResult :=
  let r := (rows.foldl processRow (false, initPlateResult plate)).2
  if truthyStr r.make || truthyStr r.model || truthyStr r.year then
    { r with success := true }
  else
    { r with
      error := some "No vehicle data found in table. Check .tmp/selenium_page.html" }

/-- `get_car_info_by_plate`: `none` stands for a page without the
`tbl-results` table (line 169). -/
def get_car_info_by_plate (plate : List Char)
    (table : Option (List TableRow)) : PlateResult :=
  match table with
  | some rows => parseResultsTable plate rows
  | none =>
      { initPlateResult plate with
        error := some "Results table not found. Check .tmp/selenium_page.html" }

/-- The row loop never touches the `success` field. -/
theorem processRow_success (st : Bool × PlateResult) (row : TableRow) :
    ((processRow st row).2).success = st.2.success := by
  rcases row with text | text | ⟨label, value⟩ | _ <;>
    simp only [processRow] <;>
    (repeat' split) <;> rfl

/-- The fold over rows never touches the `success` field. -/
theorem processRows_success (rows : List TableRow) (st : Bool × PlateResult) :
    ((rows.foldl processRow st).2).success = st.2.success := by
  induction rows generalizing st with
  | nil => rfl
  | cons row rest ih => rw [List.foldl_cons, ih, processRow_success]

/-- C10: from a found results table, `success` is `true` exactly when at
least one of make, model or year was extracted as a nonempty value; in
particular a concrete table carrying only a `Marca` row yields
`success = true` with `model`, `year`, `owner_name` and `owner_rut` all
absent — success does not guarantee a complete record. -/
theorem plate_success_iff_partial_record (plate : List Char)
    (rows : List TableRow) :
    ((parseResultsTable plate rows).success =
      (truthyStr (parseResultsTable plate rows).make ||
       truthyStr (parseResultsTable plate rows).model ||
       truthyStr (parseResultsTable plate rows).year)) ∧
    ((get_car_info_by_plate ("lxbw68".toList)
        (some [TableRow.pair ("Marca".toList) ("TOYOTA".toList)])).success
          = true ∧
      (get_car_info_by_plate ("lxbw68".toList)
        (some [TableRow.pair ("Marca".toList) ("TOYOTA".toList)])).model
          = none ∧
      (get_car_info_by_plate ("lxbw68".toList)
        (some [TableRow.pair ("Marca".toList) ("TOYOTA".toList)])).year
          = none ∧
      (get_car_info_by_plate ("lxbw68".toList)
        (some [TableRow.pair ("Marca".toList) ("TOYOTA".toList)])).owner_name
          = none ∧
      (get_car_info_by_plate ("lxbw68".toList)
        (some [TableRow.pair ("Marca".toList) ("TOYOTA".toList)])).owner_rut
          = none) := by
  constructor
  · unfold parseResultsTable
    dsimp only
    split
    · next hcond => simp_all
    · next hcond =>
        have hsucc := processRows_success rows (false, initPlateResult plate)
        simp only [Bool.not_eq_true] at hcond
        simp_all [initPlateResult]
  · exact ⟨by decide, by decide, by decide, by decide, by decide⟩

end Mrcar
